import Mathlib

/-!
# Verification of the fish-monitoring treatment lifecycle

Shallow embedding of the treatment lifecycle and derived computations of the
`ai_fish_monitoring` repository: the Vue front-end views (`TreatmentView`,
`DailyRounds`, `DailyChecklist`, the shipments/invoices page, the protocols
page) and the SQL schema (`001_initial_schema.sql`,
`add_treatment_outcome_fields.sql`).  The backend HTTP handlers are not part
of the repository sources; where a claim depends on them, the corresponding
definition is modelled from the specification and marked as such in its doc
comment.
-/

namespace FishMonitoring

/-! ## Day-count computations

`TreatmentView` (the current treatments page) computes

    const daysActive = (t) => {
      const start = new Date(t.start_date);
      const end = t.end_date ? new Date(t.end_date) : new Date();
      return Math.max(0, Math.floor((end - start) / 86400000));
    };

`DailyRounds` computes

    const daysActive = Math.max(1, Math.floor((new Date() - startDate) / 86400000) + 1);

and `DailyChecklist.vue` computes, for the observation date being entered,

    Math.max(1, Math.floor((obs - start) / 86400000) + 1)

JavaScript `Date` subtraction yields milliseconds; `Math.floor` of the real
quotient is floor division on integers, which on `Int` is `Int.fdiv`.
Timestamps are embedded as integer milliseconds. -/

def msPerDay : Int := 86400000

/-- `daysActive` from `TreatmentView` (src/unnamed/part_002, lines 231–235):
`Math.max(0, Math.floor(((end_date ?? now) - start) / 86400000))`. -/
def daysActive (start_ms : Int) (end_ms : Option Int) (now_ms : Int) : Int :=
  max 0 (Int.fdiv ((end_ms.getD now_ms) - start_ms) msPerDay)

/-- `daysActive` from `DailyRounds` (src/unnamed/part_001, line 209):
`Math.max(1, Math.floor((now - start) / 86400000) + 1)`. -/
def dailyRoundsDaysActive (start_ms now_ms : Int) : Int :=
  max 1 (Int.fdiv (now_ms - start_ms) msPerDay + 1)

/-- `dayNum` from `DailyChecklist.vue` (lines 90–95): same formula as the
`DailyRounds` variant, applied to the observation date instead of now. -/
def dayNum (start_ms obs_ms : Int) : Int :=
  max 1 (Int.fdiv (obs_ms - start_ms) msPerDay + 1)

/-! ## Density

`TreatmentView` enriches each treatment with

    const vol = s.aquarium_volume_liters;
    const qty = s.quantity;
    const density = vol && vol > 1 && qty ? (qty / vol).toFixed(2) : null;

A JavaScript number is truthy iff it is non-zero; an absent field is falsy.
The embedded value is the exact rational `qty / vol` computed before the
2-decimal formatting (`toFixed` only renders the label). -/

/-- JavaScript truthiness of an optional numeric field: absent or zero is
falsy. -/
def jsTruthy : Option Int → Bool
  | none => false
  | some n => n != 0

/-- The `density` computation of `TreatmentView`'s `enriched` mapping
(src/unnamed/part_002, lines 237–244): `vol && vol > 1 && qty` guards the
quotient, otherwise `null`. -/
def enrichedDensity (qty vol : Option Int) : Option ℚ :=
  if jsTruthy vol ∧ (vol.getD 0) > 1 ∧ jsTruthy qty then
    some ((qty.getD 0 : ℚ) / (vol.getD 0 : ℚ))
  else
    none

/-! ## Treatment lifecycle

The schema (`001_initial_schema.sql`, lines 71–79) declares
`status TEXT DEFAULT 'active' CHECK (status IN ('active','completed','modified'))`
and a nullable `end_date`; `add_treatment_outcome_fields.sql` adds nullable
`outcome` (TEXT, documented as `healthy | minor_loss | major_loss |
total_loss`), `outcome_score` (INTEGER CHECK between 1 and 5),
`total_mortality` (default 0) and `outcome_notes`. -/

inductive Status
  | active
  | completed
  | modified
deriving DecidableEq, Repr

/-- A row of the `treatments` table.  Drug associations and observations live
in their own tables and are embedded separately. -/
structure Treatment where
  shipment_id : Nat
  start_date : Int
  end_date : Option Int
  status : Status
  outcome : Option String
  outcome_score : Option Int
  total_mortality : Int
  outcome_notes : Option String
deriving DecidableEq, Repr

/-- The four outcome values documented on `treatments.outcome`. -/
def validOutcome (o : String) : Bool :=
  o == "healthy" || o == "minor_loss" || o == "major_loss" || o == "total_loss"

/-- Error taxonomy of §7. -/
inductive ApiErr
  | validationErr (msg : String)
  | notFoundErr
  | conflictErr
  | externalServiceErr
deriving DecidableEq, Repr

/-- Modelled from the spec: the backend treatment-creation endpoint
(`POST /api/treatments/`) is not among the repository sources (only its HTTP
caller in the shipments page is).  Per §4.1, `open` creates a Treatment with
`status = active`; `end_date` and the outcome columns start at their schema
defaults (null, null, null, 0). -/
def openTreatment (sid : Nat) (d : Int) : Treatment :=
  { shipment_id := sid, start_date := d, end_date := none, status := .active,
    outcome := none, outcome_score := none, total_mortality := 0,
    outcome_notes := none }

/-- Modelled from the spec: the backend graduation endpoint
(`POST /api/treatments/{id}/complete`) is not among the repository sources
(only its HTTP caller in the treatments view is).  Per §4.1 and §8,
`graduate` rejects with a ValidationError a call whose outcome or
outcome_score is missing, whose outcome_score lies outside [1,5] (also the
schema CHECK), or whose outcome is not one of the four enumerated values;
otherwise it sets `status = completed` and records `end_date` and the outcome
fields. -/
def graduate (t : Treatment) (end_date : Int) (oc : Option String)
    (sc : Option Int) (mortality : Int) (notes : Option String) :
    Except ApiErr Treatment :=
  match oc, sc with
  | none, _ => .error (.validationErr "outcome is required")
  | _, none => .error (.validationErr "outcome_score is required")
  | some o, some s =>
    if ¬ validOutcome o then .error (.validationErr "unknown outcome")
    else if s < 1 ∨ 5 < s then
      .error (.validationErr "outcome_score out of range")
    else .ok { t with
        status := .completed,
        end_date := some end_date,
        outcome := some o,
        outcome_score := some s,
        total_mortality := mortality,
        outcome_notes := notes }

/-- `edit_details` (§4.1; `saveDetails` in the treatments view patches the
owning shipment's tank fields, and the treatment's `start_date` may be
edited): status, end_date and the outcome fields are untouched. -/
def editDetails (t : Treatment) (d : Option Int) : Treatment :=
  { t with start_date := d.getD t.start_date }

/-- Labels of the treatment-row transitions (drug-set edits live in the
`treatment_drugs` table and do not touch the treatment row). -/
inductive TLabel
  | editL (d : Option Int)
  | gradL (e : Int) (oc : Option String) (sc : Option Int) (m : Int)
      (notes : Option String)

/-- Labelled step relation on a treatment row. -/
inductive TStep : Treatment → TLabel → Treatment → Prop
  | edit (t : Treatment) (d : Option Int) : TStep t (.editL d) (editDetails t d)
  | grad (t t' : Treatment) (e : Int) (oc : Option String) (sc : Option Int)
      (m : Int) (notes : Option String) :
      graduate t e oc sc m notes = .ok t' → TStep t (.gradL e oc sc m notes) t'

def TLabel.isGraduation : TLabel → Prop
  | .editL _ => False
  | .gradL _ _ _ _ _ => True

/-- Treatment rows reachable from creation by the visible transitions. -/
inductive TReachable : Treatment → Prop
  | opened (sid : Nat) (d : Int) : TReachable (openTreatment sid d)
  | step (t : Treatment) (l : TLabel) (t' : Treatment) :
      TReachable t → TStep t l t' → TReachable t'

/-- On success, `graduate` returned a completed row whose end_date and outcome
fields were set from validated inputs. -/
theorem graduate_ok_fields {t t' : Treatment} {e : Int} {oc : Option String}
    {sc : Option Int} {m : Int} {notes : Option String}
    (h : graduate t e oc sc m notes = .ok t') :
    t'.status = .completed ∧ t'.end_date = some e ∧
    (∃ o, oc = some o ∧ validOutcome o = true ∧ t'.outcome = some o) ∧
    (∃ s, sc = some s ∧ 1 ≤ s ∧ s ≤ 5 ∧ t'.outcome_score = some s) := by
  match oc, sc with
  | none, _ => simp [graduate] at h
  | some o, none => simp [graduate] at h
  | some o, some s =>
    simp only [graduate] at h
    split_ifs at h with h1 h2
    cases h
    refine ⟨rfl, rfl, ⟨o, rfl, ?_, rfl⟩, ⟨s, rfl, ?_, ?_, rfl⟩⟩
    · exact h1
    · omega
    · omega

/-- The lifecycle invariant holds at every reachable treatment row. -/
theorem treachable_invariant (t : Treatment) (h : TReachable t) :
    (t.status = .active ↔ t.end_date = none) ∧
    (t.status = .active ↔ t.outcome = none) := by
  induction h with
  | opened sid d => simp [openTreatment]
  | step u l u' hu hstep ih =>
    cases hstep with
    | edit d => simpa [editDetails] using ih
    | grad t2 e oc sc m notes hok =>
      obtain ⟨hst, hend, ⟨o, _, _, hoc⟩, _⟩ := graduate_ok_fields hok
      rw [hst, hend, hoc]
      simp

/-- C1: in every reachable treatment row, `status = active` holds iff
`end_date` is null, and iff `outcome` is null; and along every step out of a
reachable row, `end_date` (resp. `outcome`) goes from null to non-null exactly
when the step is a graduation taking the row from active to completed. -/
theorem treatment_lifecycle_invariant (t : Treatment) (h : TReachable t) :
    ((t.status = .active ↔ t.end_date = none) ∧
     (t.status = .active ↔ t.outcome = none)) ∧
    ∀ l t', TStep t l t' →
      (((t.end_date = none ∧ t'.end_date ≠ none) ↔
        (l.isGraduation ∧ t.status = .active ∧ t'.status = .completed)) ∧
       ((t.outcome = none ∧ t'.outcome ≠ none) ↔
        (l.isGraduation ∧ t.status = .active ∧ t'.status = .completed))) := by
  have hinv := treachable_invariant t h
  refine ⟨hinv, ?_⟩
  intro l t' hstep
  cases hstep with
  | edit d =>
    constructor
    · constructor
      · rintro ⟨h1, h2⟩
        exact absurd h1 h2
      · rintro ⟨hfalse, -⟩
        exact hfalse.elim
    · constructor
      · rintro ⟨h1, h2⟩
        exact absurd h1 h2
      · rintro ⟨hfalse, -⟩
        exact hfalse.elim
  | grad t2 e oc sc m notes hok =>
    obtain ⟨hst, hend, ⟨o, _, _, hoc⟩, _⟩ := graduate_ok_fields hok
    have hgl : (TLabel.gradL e oc sc m notes).isGraduation := trivial
    constructor
    · constructor
      · rintro ⟨h1, -⟩
        exact ⟨hgl, hinv.1.mpr h1, hst⟩
      · rintro ⟨-, h1, -⟩
        refine ⟨hinv.1.mp h1, ?_⟩
        rw [hend]
        simp
    · constructor
      · rintro ⟨h1, -⟩
        exact ⟨hgl, hinv.2.mpr h1, hst⟩
      · rintro ⟨-, h1, -⟩
        refine ⟨hinv.2.mp h1, ?_⟩
        rw [hoc]
        simp

/-- Witness for `treatment_lifecycle_invariant` at a freshly opened
treatment. -/
theorem treatment_lifecycle_invariant_witness :
    ((openTreatment 1 0).status = .active ↔ (openTreatment 1 0).end_date = none) ∧
    ((openTreatment 1 0).status = .active ↔ (openTreatment 1 0).outcome = none) :=
  (treatment_lifecycle_invariant (openTreatment 1 0) (.opened 1 0)).1

/-- C2: `graduate` succeeds exactly when the outcome is present and one of the
four enumerated values and the outcome_score is present and within [1,5]; on
success the row is completed; every failure is a ValidationError. -/
theorem graduate_validation (t : Treatment) (e : Int) (oc : Option String)
    (sc : Option Int) (m : Int) (notes : Option String) :
    ((∃ t', graduate t e oc sc m notes = .ok t') ↔
      (∃ o s, oc = some o ∧ validOutcome o = true ∧ sc = some s ∧
        1 ≤ s ∧ s ≤ 5)) ∧
    (∀ t', graduate t e oc sc m notes = .ok t' → t'.status = .completed) ∧
    (∀ err, graduate t e oc sc m notes = .error err →
      ∃ msg, err = .validationErr msg) := by
  refine ⟨⟨?_, ?_⟩, ?_, ?_⟩
  · rintro ⟨t', ht'⟩
    obtain ⟨-, -, ⟨o, ho, hvo, -⟩, ⟨s, hs, hs1, hs5, -⟩⟩ := graduate_ok_fields ht'
    exact ⟨o, s, ho, hvo, hs, hs1, hs5⟩
  · rintro ⟨o, s, rfl, hvo, rfl, hs1, hs5⟩
    refine ⟨{ t with
        status := .completed,
        end_date := some e,
        outcome := some o,
        outcome_score := some s,
        total_mortality := m,
        outcome_notes := notes }, ?_⟩
    simp only [graduate]
    rw [if_neg (by simp [hvo]), if_neg (by omega)]
  · intro t' ht'
    exact (graduate_ok_fields ht').1
  · intro err herr
    match oc, sc with
    | none, _ =>
      simp only [graduate] at herr
      exact ⟨_, (Except.error.injEq _ _).mp herr |>.symm⟩
    | some o, none =>
      simp only [graduate] at herr
      exact ⟨_, (Except.error.injEq _ _).mp herr |>.symm⟩
    | some o, some s =>
      simp only [graduate] at herr
      split_ifs at herr with h1 h2
      · exact ⟨_, (Except.error.injEq _ _).mp herr |>.symm⟩
      · exact ⟨_, (Except.error.injEq _ _).mp herr |>.symm⟩

/-- Witness for `graduate_validation`: a concrete valid graduation
succeeds. -/
theorem graduate_validation_witness :
    ∃ t', graduate (openTreatment 1 0) 10 (some "healthy") (some 5) 1 none
      = .ok t' :=
  (graduate_validation (openTreatment 1 0) 10 (some "healthy") (some 5) 1
    none).1.mpr ⟨"healthy", 5, rfl, by decide, rfl, by decide, by decide⟩

/-! ## Theorems on day counting and density -/

/-- C3: `days_active` equals `max(0, floor(((end_date ?? today) − start_date)
in days))`; the daily-rounds surface computes `max(1, floor((today −
start_date) in days) + 1)`, as does the checklist's day number; both are total
over integer timestamps, and the two conventions differ by exactly one day
whenever the plain difference is non-negative. -/
theorem day_count_conventions (s e n : Int) (h : 0 ≤ n - s) :
    daysActive s (some e) n = max 0 (Int.fdiv (e - s) msPerDay) ∧
    daysActive s none n = max 0 (Int.fdiv (n - s) msPerDay) ∧
    dailyRoundsDaysActive s n = max 1 (Int.fdiv (n - s) msPerDay + 1) ∧
    dayNum s n = dailyRoundsDaysActive s n ∧
    dailyRoundsDaysActive s n - daysActive s none n = 1 := by
  have hpos : (0:Int) < msPerDay := by norm_num [msPerDay]
  have hd : 0 ≤ Int.fdiv (n - s) msPerDay := by
    rw [Int.fdiv_eq_ediv _ (le_of_lt hpos)]
    exact Int.ediv_nonneg h (le_of_lt hpos)
  refine ⟨rfl, rfl, rfl, rfl, ?_⟩
  simp only [daysActive, dailyRoundsDaysActive, Option.getD]
  omega

/-- Witness for `day_count_conventions` at start = 0, now = three days and
five milliseconds after the epoch. -/
theorem day_count_conventions_witness :
    (0 : Int) ≤ 259200005 - 0 ∧
    dailyRoundsDaysActive 0 259200005 - daysActive 0 none 259200005 = 1 :=
  ⟨by decide, (day_count_conventions 0 864000000 259200005 (by decide)).2.2.2.2⟩

/-- C8: for a fixed treatment, `days_active` is monotonically non-decreasing
as the wall-clock timestamp advances while `end_date` is absent, and once
`end_date` is set the value no longer depends on the current timestamp. -/
theorem daysActive_monotone_and_frozen (s n₁ n₂ : Int) (h : n₁ ≤ n₂) :
    daysActive s none n₁ ≤ daysActive s none n₂ ∧
    ∀ e, daysActive s (some e) n₁ = daysActive s (some e) n₂ := by
  have hpos : (0:Int) < msPerDay := by norm_num [msPerDay]
  constructor
  · apply max_le_max le_rfl
    simp only [Option.getD]
    rw [Int.fdiv_eq_ediv _ (le_of_lt hpos), Int.fdiv_eq_ediv _ (le_of_lt hpos)]
    exact Int.ediv_le_ediv hpos (sub_le_sub_right h s)
  · intro e
    rfl

/-- Witness for `daysActive_monotone_and_frozen` at two concrete timestamps. -/
theorem daysActive_monotone_witness :
    (86400000 : Int) ≤ 259200005 ∧
    daysActive 0 none 86400000 ≤ daysActive 0 none 259200005 :=
  ⟨by decide, (daysActive_monotone_and_frozen 0 86400000 259200005 (by decide)).1⟩

/-- C4: for a shipment with positive quantity, the enriched density is defined
and equals `quantity / aquarium_volume_liters` exactly when the volume exceeds
1; it is `null` whenever the volume is at most 1 (the sentinel range), and
also when the volume is absent. -/
theorem density_defined_iff (q v : Int) (hq : 0 < q) :
    (1 < v → enrichedDensity (some q) (some v) = some ((q : ℚ) / (v : ℚ))) ∧
    (v ≤ 1 → enrichedDensity (some q) (some v) = none) ∧
    enrichedDensity (some q) none = none := by
  refine ⟨?_, ?_, rfl⟩
  · intro hv
    have hv0 : v ≠ 0 := by omega
    simp [enrichedDensity, jsTruthy, hv, hq.ne', hv0]
  · intro hv
    simp [enrichedDensity, jsTruthy, not_lt.mpr hv]

/-- Witness for `density_defined_iff`: quantity 50, volume 200 gives density
1/4. -/
theorem density_defined_witness :
    (0 : Int) < 50 ∧ enrichedDensity (some 50) (some 200) = some ((50 : ℚ) / 200) :=
  ⟨by decide, (density_defined_iff 50 200 (by decide)).1 (by decide)⟩

/-! ## Shipments, invoices and invoice deletion

Embedding of the shipments page (src/unnamed/part_000).  A shipment sits
either inside an invoice (`inv.shipments`) or in the standalone list; the
`treatments` table is keyed by shipment id and is not touched by the invoice
operations.  `doDeleteInvoice` (lines 609–624) runs, on a successful backend
delete,

    const freed = (this.deleteInvoiceTarget.shipments || []);
    this.standaloneShipments = [...freed, ...this.standaloneShipments];
    this.invoices = this.invoices.filter(i => i.id !== this.deleteInvoiceTarget.id);

matching the modal warning (line 275): "The invoice will be deleted. Fish
inside will become standalone (not deleted)." -/

structure Shipment where
  id : Nat
  scientific_name : String
  common_name : String
  source : String
  quantity : Int
  aquarium_number : Option String
  aquarium_volume_liters : Option Int
deriving DecidableEq, Repr

structure Invoice where
  id : Nat
  supplier_name : Option String
  invoice_number : Option String
  shipments : List Shipment
deriving DecidableEq, Repr

structure ShipmentsPageState where
  invoices : List Invoice
  standaloneShipments : List Shipment
  treatments : List Treatment
deriving DecidableEq, Repr

/-- `doDeleteInvoice` (src/unnamed/part_000, lines 609–624). -/
def doDeleteInvoice (st : ShipmentsPageState) (target : Invoice) :
    ShipmentsPageState :=
  { st with
      standaloneShipments := target.shipments ++ st.standaloneShipments,
      invoices := st.invoices.filter (fun i => i.id != target.id) }

/-- All shipments present in the state, whether attached to an invoice or
standalone. -/
def allShipments (st : ShipmentsPageState) : List Shipment :=
  st.invoices.flatMap Invoice.shipments ++ st.standaloneShipments

theorem bind_filter_perm (target : Invoice) :
    ∀ l : List Invoice, target ∈ l → (l.map Invoice.id).Nodup →
    List.Perm
      (target.shipments ++
        (l.filter (fun i => i.id != target.id)).flatMap Invoice.shipments)
      (l.flatMap Invoice.shipments) := by
  intro l
  induction l with
  | nil => intro hmem; cases hmem
  | cons i rest ih =>
    intro hmem hnodup
    rw [List.map_cons, List.nodup_cons] at hnodup
    obtain ⟨hid, hnd⟩ := hnodup
    rcases List.mem_cons.mp hmem with heq | hmemr
    · subst heq
      have hfilter : rest.filter (fun i => i.id != target.id) = rest := by
        apply List.filter_eq_self.mpr
        intro j hj
        simp only [bne_iff_ne, ne_eq]
        intro hjid
        exact hid (hjid ▸ List.mem_map_of_mem Invoice.id hj)
      simp only [List.filter_cons, bne_self_eq_false, Bool.false_eq_true,
        if_false, hfilter, List.flatMap_cons]
      exact List.Perm.refl _
    · have hne : (i.id != target.id) = true := by
        simp only [bne_iff_ne, ne_eq]
        intro hiid
        exact hid (hiid ▸ List.mem_map_of_mem Invoice.id hmemr)
      have ihp := ih hmemr hnd
      simp only [List.filter_cons, hne, if_true, List.flatMap_cons]
      have h1 : List.Perm
          (target.shipments ++ (i.shipments ++
            (rest.filter (fun i => i.id != target.id)).flatMap Invoice.shipments))
          (i.shipments ++ (target.shipments ++
            (rest.filter (fun i => i.id != target.id)).flatMap Invoice.shipments)) := by
        rw [← List.append_assoc, ← List.append_assoc]
        exact (List.perm_append_comm).append_right _
      exact h1.trans (ihp.append_left i.shipments)

/-- C5: deleting an invoice with N attached shipments leaves all N shipments
present, unchanged, in the standalone list; the overall shipment collection
is a permutation of the old one (so 0 shipments are deleted); the treatments
are untouched; and no invoice with the deleted id remains. -/
theorem invoice_delete_detaches (st : ShipmentsPageState) (target : Invoice)
    (hmem : target ∈ st.invoices)
    (hnodup : (st.invoices.map Invoice.id).Nodup) :
    (∀ s ∈ target.shipments,
      s ∈ (doDeleteInvoice st target).standaloneShipments) ∧
    List.Perm (allShipments (doDeleteInvoice st target)) (allShipments st) ∧
    (allShipments (doDeleteInvoice st target)).length =
      (allShipments st).length ∧
    (doDeleteInvoice st target).treatments = st.treatments ∧
    ∀ i ∈ (doDeleteInvoice st target).invoices, i.id ≠ target.id := by
  have hperm : List.Perm (allShipments (doDeleteInvoice st target))
      (allShipments st) := by
    simp only [allShipments, doDeleteInvoice]
    have h1 : List.Perm
        ((st.invoices.filter (fun i => i.id != target.id)).flatMap Invoice.shipments
          ++ (target.shipments ++ st.standaloneShipments))
        ((target.shipments ++
          (st.invoices.filter (fun i => i.id != target.id)).flatMap Invoice.shipments)
          ++ st.standaloneShipments) := by
      rw [← List.append_assoc]
      exact (List.perm_append_comm).append_right _
    exact h1.trans
      ((bind_filter_perm target st.invoices hmem hnodup).append_right _)
  refine ⟨?_, hperm, hperm.length_eq, rfl, ?_⟩
  · intro s hs
    exact List.mem_append_left _ hs
  · intro i hi
    have hmf := List.of_mem_filter hi
    simpa [bne_iff_ne] using hmf

/-- Witness for `invoice_delete_detaches` on a one-invoice state with two
attached fish and one standalone fish. -/
theorem invoice_delete_detaches_witness :
    (let fishA : Shipment :=
      ⟨1, "Betta splendens", "Betta", "Thailand", 50, none, some 200⟩
     let fishB : Shipment :=
      ⟨2, "Paracheirodon innesi", "Neon tetra", "Brazil", 100, none, some 100⟩
     let fishC : Shipment :=
      ⟨3, "Carassius auratus", "Goldfish", "China", 20, none, none⟩
     let inv : Invoice := ⟨7, some "Aqua Fish Ltd", some "INV-001", [fishA, fishB]⟩
     let st : ShipmentsPageState := ⟨[inv], [fishC], []⟩
     (allShipments (doDeleteInvoice st inv)).length = (allShipments st).length ∧
       (doDeleteInvoice st inv).treatments = st.treatments) := by
  have h := invoice_delete_detaches
    ⟨[⟨7, some "Aqua Fish Ltd", some "INV-001",
      [⟨1, "Betta splendens", "Betta", "Thailand", 50, none, some 200⟩,
       ⟨2, "Paracheirodon innesi", "Neon tetra", "Brazil", 100, none, some 100⟩]⟩],
      [⟨3, "Carassius auratus", "Goldfish", "China", 20, none, none⟩], []⟩
    ⟨7, some "Aqua Fish Ltd", some "INV-001",
      [⟨1, "Betta splendens", "Betta", "Thailand", 50, none, some 200⟩,
       ⟨2, "Paracheirodon innesi", "Neon tetra", "Brazil", 100, none, some 100⟩]⟩
    (by simp) (by simp)
  exact ⟨h.2.2.1, h.2.2.2.1⟩

/-! ## Daily observations

Schema table `daily_observations` (001_initial_schema.sql, lines 111–133):
indexes on `observation_date` and `treatment_id` but no uniqueness constraint
on (treatment_id, observation_date). -/

structure Observation where
  treatment_id : Nat
  observation_date : Int
  dead_fish_count : Int
  condition_trend : Option String
  treatments_completed : Bool
  notes : Option String
deriving DecidableEq, Repr

/-- Modelled from the spec: the backend `POST /api/observations/` handler is
not among the repository sources (only its callers in the daily views are).
Per §4.2 the core record operation is a plain insert, and the schema has no
uniqueness constraint on (treatment_id, observation_date). -/
def recordObservation (db : List Observation) (o : Observation) :
    List Observation :=
  db ++ [o]

/-- Number of persisted observation rows for a (treatment, date) pair. -/
def obsCountFor (db : List Observation) (tid : Nat) (d : Int) : Nat :=
  (db.filter (fun o => o.treatment_id == tid && o.observation_date == d)).length

/-- C6: recording is a plain insert: each call adds exactly one row for its
(treatment_id, observation_date) pair, so two calls with the same pair leave
two rows persisted. -/
theorem observation_record_plain_insert (db : List Observation)
    (o1 o2 : Observation) (tid : Nat) (d : Int)
    (h1 : o1.treatment_id = tid) (h2 : o1.observation_date = d)
    (h3 : o2.treatment_id = tid) (h4 : o2.observation_date = d) :
    obsCountFor (recordObservation db o1) tid d = obsCountFor db tid d + 1 ∧
    obsCountFor (recordObservation (recordObservation db o1) o2) tid d =
      obsCountFor db tid d + 2 := by
  constructor
  · simp [obsCountFor, recordObservation, List.filter_append, h1, h2]
  · simp [obsCountFor, recordObservation, List.filter_append, h1, h2, h3, h4]

/-- Witness for `observation_record_plain_insert`: two identical same-day
submissions on an empty table leave two rows. -/
theorem observation_record_plain_insert_witness :
    obsCountFor (recordObservation (recordObservation []
      ⟨1, 20260101, 0, some "same", true, none⟩)
      ⟨1, 20260101, 2, some "regress", true, none⟩) 1 20260101 = 0 + 2 :=
  (observation_record_plain_insert []
    ⟨1, 20260101, 0, some "same", true, none⟩
    ⟨1, 20260101, 2, some "regress", true, none⟩ 1 20260101
    rfl rfl rfl rfl).2

/-! ## Protocol catalog rows and the daily-rounds due computation

`drug_protocols` rows (001_initial_schema.sql, lines 42–52) and
`treatment_drugs` rows (lines 91–100).  `DailyRounds` (src/unnamed/part_001)
builds, per active-treatment card,

    let treatmentDays = null;
    for (const d of (t.drugs || [])) {
      const p = protocolMap[d.drug_protocol_id];
      if (p?.typical_treatment_period_days) {
        treatmentDays = p.typical_treatment_period_days;
        break;
      }
    }

and marks the day counter overdue (line 38) with
`card.daysActive > card.treatmentDays`, JavaScript coercing `null` to 0. -/

structure Protocol where
  id : Nat
  drug_name : String
  typical_treatment_period_days : Option Int
deriving DecidableEq, Repr

structure TreatmentDrug where
  id : Nat
  treatment_id : Nat
  drug_protocol_id : Nat
deriving DecidableEq, Repr

/-- Period of the protocol a drug row references, skipping missing protocols,
null periods, and the falsy period 0. -/
def drugPeriod (protocols : List Protocol) (d : TreatmentDrug) : Option Int :=
  (((protocols.find? (fun p => p.id == d.drug_protocol_id)).bind
    Protocol.typical_treatment_period_days).filter (fun n => n != 0))

/-- The `treatmentDays` loop of `DailyRounds` (src/unnamed/part_001, lines
211–219): scan the drug rows in order and stop at the first truthy
`typical_treatment_period_days`. -/
def treatmentDays (drugs : List TreatmentDrug) (protocols : List Protocol) :
    Option Int :=
  match drugs with
  | [] => none
  | d :: rest =>
    match (protocols.find? (fun p => p.id == d.drug_protocol_id)).bind
        Protocol.typical_treatment_period_days with
    | some n => if n != 0 then some n else treatmentDays rest protocols
    | none => treatmentDays rest protocols

/-- The overdue test on the day counter of `DailyRounds` (src/unnamed/part_001,
line 38): `daysActive > treatmentDays` with `null` coerced to 0. -/
def cardOverdue (da : Int) (td : Option Int) : Bool :=
  da > td.getD 0

/-- The claim's `protocol_due`, following the spec's words (§4.1): active, and
days_active has reached the bound, the bound being the maximum
`typical_treatment_period_days` across all assigned drugs. -/
def specProtocolDue (statusIsActive : Bool) (da : Int)
    (drugs : List TreatmentDrug) (protocols : List Protocol) : Bool :=
  let periods := drugs.filterMap (fun d =>
    (protocols.find? (fun p => p.id == d.drug_protocol_id)).bind
      Protocol.typical_treatment_period_days)
  statusIsActive && !periods.isEmpty && decide (periods.foldr max 0 ≤ da)

/-- C7 counterexample: an active treatment with drugs whose protocols have
periods 3 and 14, at days_active = 10.  The code's overdue flag is on (10
strictly exceeds the first drug's period 3), while the claim's predicate is
off (10 has not reached the maximum bound 14). -/
theorem protocol_due_counterexample :
    cardOverdue 10
      (treatmentDays [⟨1, 1, 1⟩, ⟨2, 1, 2⟩]
        [⟨1, "Malachite Green", some 3⟩, ⟨2, "Copper Sulfate", some 14⟩]) = true ∧
    specProtocolDue true 10 [⟨1, 1, 1⟩, ⟨2, 1, 2⟩]
      [⟨1, "Malachite Green", some 3⟩, ⟨2, "Copper Sulfate", some 14⟩] = false := by
  constructor
  · rfl
  · rfl

/-- The `treatmentDays` loop equals the first drug period found in list
order. -/
theorem treatmentDays_eq_findSome (drugs : List TreatmentDrug)
    (protocols : List Protocol) :
    treatmentDays drugs protocols = drugs.findSome? (drugPeriod protocols) := by
  induction drugs with
  | nil => rfl
  | cons d rest ih =>
    rw [treatmentDays, List.findSome?_cons]
    cases hp : (protocols.find? (fun p => p.id == d.drug_protocol_id)).bind
        Protocol.typical_treatment_period_days with
    | none => simp [drugPeriod, hp, ih]
    | some n =>
      by_cases hn : n = 0
      · subst hn
        simp [drugPeriod, hp, Option.filter, ih]
      · have hbne : (n != 0) = true := by simpa using hn
        simp [drugPeriod, hp, Option.filter, hbne]

/-- C7 amended: on a daily-rounds card (all cards are built from active
treatments), the overdue/protocol_due flag is on exactly when days_active
strictly exceeds the period of the first assigned drug whose protocol has a
non-null, non-zero `typical_treatment_period_days`; when no assigned drug has
such a period, it is on whenever days_active > 0. -/
theorem protocol_due_amended (da : Int) (drugs : List TreatmentDrug)
    (protocols : List Protocol) :
    cardOverdue da (treatmentDays drugs protocols) = true ↔
      ((∃ n, drugs.findSome? (drugPeriod protocols) = some n ∧ n < da) ∨
       (drugs.findSome? (drugPeriod protocols) = none ∧ 0 < da)) := by
  rw [treatmentDays_eq_findSome]
  cases hfs : drugs.findSome? (drugPeriod protocols) with
  | none => simp [cardOverdue]
  | some n => simp [cardOverdue]

/-! ## Supplier performance aggregation

`supplier_performance_view` (001_initial_schema.sql, lines 212–223):

    SELECT s.source, ..., AVG(f.success_rate) AS avg_success_rate
    FROM shipments s
    LEFT JOIN treatments t ON s.id = t.shipment_id
    LEFT JOIN followup_assessments f ON t.id = f.treatment_id
    GROUP BY s.source

Rows of the left join with no matching followup carry a NULL success_rate;
SQL `AVG` ignores NULLs and returns NULL when no non-null value exists. -/

structure TreatmentRow where
  id : Nat
  shipment_id : Nat
deriving DecidableEq, Repr

structure FollowupAssessment where
  treatment_id : Nat
  success_rate : ℚ
deriving DecidableEq, Repr

/-- The non-null `success_rate` values joined to one source by the view: for
each shipment of the source, each of its treatments, each followup of that
treatment. -/
def sourceSuccessRates (shipments : List Shipment) (ts : List TreatmentRow)
    (fs : List FollowupAssessment) (src : String) : List ℚ :=
  (shipments.filter (fun s => s.source == src)).flatMap (fun s =>
    (ts.filter (fun t => t.shipment_id == s.id)).flatMap (fun t =>
      (fs.filter (fun f => f.treatment_id == t.id)).map
        FollowupAssessment.success_rate))

/-- `AVG(f.success_rate)` for one source: NULL when the group has no non-null
value, otherwise the mean of the non-null values. -/
def avgSuccessRate (shipments : List Shipment) (ts : List TreatmentRow)
    (fs : List FollowupAssessment) (src : String) : Option ℚ :=
  let vals := sourceSuccessRates shipments ts fs src
  if vals.isEmpty then none else some (vals.sum / vals.length)

/-- C9: when no followup row attaches to any treatment of any shipment of a
source, the view's avg_success_rate for that source is NULL (absent), never
the number zero. -/
theorem avg_success_rate_absent_for_no_followups (shipments : List Shipment)
    (ts : List TreatmentRow) (fs : List FollowupAssessment) (src : String)
    (h : ∀ f ∈ fs, ∀ t ∈ ts, f.treatment_id = t.id →
      ∀ s ∈ shipments, s.source = src → t.shipment_id ≠ s.id) :
    avgSuccessRate shipments ts fs src = none ∧
    ∀ q : ℚ, avgSuccessRate shipments ts fs src ≠ some q := by
  have hempty : sourceSuccessRates shipments ts fs src = [] := by
    rw [sourceSuccessRates, List.flatMap_eq_nil_iff]
    intro s hs
    rw [List.flatMap_eq_nil_iff]
    intro t ht
    rw [List.map_eq_nil_iff, List.filter_eq_nil_iff]
    intro f hf
    obtain ⟨hsmem, hssrc⟩ := List.mem_filter.mp hs
    obtain ⟨htmem, htsid⟩ := List.mem_filter.mp ht
    simp only [beq_iff_eq] at hssrc htsid ⊢
    intro hft
    exact h f hf t htmem hft s hsmem hssrc htsid
  constructor
  · simp [avgSuccessRate, hempty]
  · intro q
    simp [avgSuccessRate, hempty]

/-- Witness for `avg_success_rate_absent_for_no_followups`: one Thailand
shipment with one treatment and no followups yields a NULL average. -/
theorem avg_success_rate_absent_witness :
    avgSuccessRate [⟨1, "Betta splendens", "Betta", "Thailand", 50, none, some 200⟩]
      [⟨1, 1⟩] [] "Thailand" = none :=
  (avg_success_rate_absent_for_no_followups
    [⟨1, "Betta splendens", "Betta", "Thailand", 50, none, some 200⟩]
    [⟨1, 1⟩] [] "Thailand" (by simp)).1

/-! ## Protocol catalog deletion and referential integrity

`treatment_drugs` (001_initial_schema.sql, lines 91–100) declares
`FOREIGN KEY (drug_protocol_id) REFERENCES drug_protocols(id)` with no
ON DELETE action, so PostgreSQL's default NO ACTION applies: a delete of a
referenced protocol is rejected; an insert referencing a missing protocol is
rejected.  The two CASCADE keys (`treatment_drugs.treatment_id`,
`treatments.shipment_id`) remove drug rows when their treatment goes away. -/

inductive DbErr
  | fkRestrict
  | fkViolation
deriving DecidableEq, Repr

/-- The protocol catalog plus its referencing drug rows. -/
structure CatalogState where
  protocols : List Protocol
  treatment_drugs : List TreatmentDrug
deriving DecidableEq, Repr

/-- `DELETE FROM drug_protocols WHERE id = pid` under the NO ACTION foreign
key: rejected while any `treatment_drugs` row references the protocol, and
the catalog is unchanged (no new state is produced). -/
def deleteProtocol (st : CatalogState) (pid : Nat) :
    Except DbErr CatalogState :=
  if st.treatment_drugs.any (fun r => r.drug_protocol_id == pid) then
    .error .fkRestrict
  else
    .ok { st with protocols := st.protocols.filter (fun p => p.id != pid) }

/-- `INSERT INTO drug_protocols ...`. -/
def insertProtocol (st : CatalogState) (p : Protocol) : CatalogState :=
  { st with protocols := st.protocols ++ [p] }

/-- `INSERT INTO treatment_drugs ...`: the foreign key requires the referenced
protocol to exist. -/
def insertTreatmentDrug (st : CatalogState) (r : TreatmentDrug) :
    Except DbErr CatalogState :=
  if st.protocols.any (fun p => p.id == r.drug_protocol_id) then
    .ok { st with treatment_drugs := st.treatment_drugs ++ [r] }
  else
    .error .fkViolation

/-- `DELETE FROM treatment_drugs WHERE id = rid` (the remove-drug action). -/
def removeTreatmentDrug (st : CatalogState) (rid : Nat) : CatalogState :=
  { st with
      treatment_drugs := st.treatment_drugs.filter (fun r => r.id != rid) }

/-- Deleting a treatment cascades to its drug rows (`ON DELETE CASCADE` on
`treatment_drugs.treatment_id`). -/
def deleteTreatmentCascade (st : CatalogState) (tid : Nat) : CatalogState :=
  { st with
      treatment_drugs :=
        st.treatment_drugs.filter (fun r => r.treatment_id != tid) }

/-- Catalog states reachable from the empty database by the schema's
operations. -/
inductive CatReachable : CatalogState → Prop
  | empty : CatReachable ⟨[], []⟩
  | insP (st : CatalogState) (p : Protocol) :
      CatReachable st → CatReachable (insertProtocol st p)
  | delP (st st' : CatalogState) (pid : Nat) :
      CatReachable st → deleteProtocol st pid = .ok st' → CatReachable st'
  | insTD (st st' : CatalogState) (r : TreatmentDrug) :
      CatReachable st → insertTreatmentDrug st r = .ok st' → CatReachable st'
  | remTD (st : CatalogState) (rid : Nat) :
      CatReachable st → CatReachable (removeTreatmentDrug st rid)
  | delT (st : CatalogState) (tid : Nat) :
      CatReachable st → CatReachable (deleteTreatmentCascade st tid)

/-- Every drug row references an existing protocol. -/
def refIntegrity (st : CatalogState) : Prop :=
  ∀ r ∈ st.treatment_drugs, ∃ p ∈ st.protocols, p.id = r.drug_protocol_id

theorem catReachable_refIntegrity (st : CatalogState) (h : CatReachable st) :
    refIntegrity st := by
  induction h with
  | empty => intro r hr; cases hr
  | insP st p hst ih =>
    intro r hr
    obtain ⟨q, hq, hqid⟩ := ih r hr
    exact ⟨q, List.mem_append_left _ hq, hqid⟩
  | delP st st' pid hst hok ih =>
    rw [deleteProtocol] at hok
    split_ifs at hok with hany
    cases hok
    intro r hr
    obtain ⟨q, hq, hqid⟩ := ih r hr
    refine ⟨q, List.mem_filter.mpr ⟨hq, ?_⟩, hqid⟩
    have hnref : r.drug_protocol_id ≠ pid := by
      intro heq
      exact hany (List.any_eq_true.mpr ⟨r, hr, by simp [heq]⟩)
    simp [hqid, hnref]
  | insTD st st' r0 hst hok ih =>
    rw [insertTreatmentDrug] at hok
    split_ifs at hok with hany
    cases hok
    intro r hr
    rcases List.mem_append.mp hr with hold | hnew
    · exact ih r hold
    · obtain ⟨q, hq, hqb⟩ := List.any_eq_true.mp hany
      have hr0 : r = r0 := List.mem_singleton.mp hnew
      exact ⟨q, hq, hr0 ▸ (beq_iff_eq.mp hqb)⟩
  | remTD st rid hst ih =>
    intro r hr
    exact ih r (List.mem_of_mem_filter hr)
  | delT st tid hst ih =>
    intro r hr
    exact ih r (List.mem_of_mem_filter hr)

/-- C10: in every reachable catalog state, deleting a protocol referenced by
some drug row is rejected by the foreign key (and produces no new state);
a delete can only succeed when no drug row references the protocol, and it
leaves the drug rows unchanged; consequently referential integrity holds in
every reachable state. -/
theorem protocol_delete_restricted (st : CatalogState) (h : CatReachable st) :
    refIntegrity st ∧
    ∀ pid : Nat,
      ((∃ r ∈ st.treatment_drugs, r.drug_protocol_id = pid) →
        deleteProtocol st pid = .error .fkRestrict) ∧
      (∀ st', deleteProtocol st pid = .ok st' →
        (∀ r ∈ st.treatment_drugs, r.drug_protocol_id ≠ pid) ∧
        st'.treatment_drugs = st.treatment_drugs) := by
  refine ⟨catReachable_refIntegrity st h, ?_⟩
  intro pid
  constructor
  · rintro ⟨r, hr, hrid⟩
    rw [deleteProtocol, if_pos]
    exact List.any_eq_true.mpr ⟨r, hr, by simp [hrid]⟩
  · intro st' hok
    rw [deleteProtocol] at hok
    split_ifs at hok with hany
    cases hok
    constructor
    · intro r hr hrid
      exact hany (List.any_eq_true.mpr ⟨r, hr, by simp [hrid]⟩)
    · rfl

/-- Witness for `protocol_delete_restricted`: in the reachable state holding
the Methylene Blue protocol and one drug row referencing it, deleting the
protocol is rejected. -/
theorem protocol_delete_restricted_witness :
    deleteProtocol
      ⟨[⟨1, "Methylene Blue", some 7⟩], [⟨1, 1, 1⟩]⟩ 1 = .error .fkRestrict := by
  have hreach : CatReachable ⟨[⟨1, "Methylene Blue", some 7⟩], [⟨1, 1, 1⟩]⟩ :=
    CatReachable.insTD ⟨[⟨1, "Methylene Blue", some 7⟩], []⟩
      ⟨[⟨1, "Methylene Blue", some 7⟩], [⟨1, 1, 1⟩]⟩ ⟨1, 1, 1⟩
      (CatReachable.insP ⟨[], []⟩ ⟨1, "Methylene Blue", some 7⟩
        CatReachable.empty) rfl
  exact ((protocol_delete_restricted _ hreach).2 1).1 ⟨⟨1, 1, 1⟩, by simp, rfl⟩

end FishMonitoring
